import Mathlib

/-!
Shallow embedding of the telemetry aggregation and exposition subsystem of
the esp32 sensor station firmware (src/main/metrics.c, src/main/mqtt_publisher.c).

C byte strings are modelled as lists of byte values (`Str := List Nat`), so
that character arithmetic in the source (for example lower-casing by adding
32, or comparing against the codes of space and hyphen) is modelled exactly.
The helper `chars` converts an ASCII Lean string literal to this byte form.

Floating point values travel through the source only as opaque readings that
are finally rendered with the printf format with two decimals; the embedding
represents such a reading by its rendered value in hundredths (an `Int`) and
`fmt2` renders it the way printf renders the float.
-/

/-- Byte strings: the C `char` buffer contents, one `Nat` per byte. -/
abbrev Str := List Nat

/-- Convert an ASCII Lean string literal to its byte-list form. -/
def chars (s : String) : Str := s.data.map Char.toNat

/-- Render an integer the way printf `%d` / `%lld` renders it. -/
def intStr (i : Int) : Str := chars (toString i)

/-- Render a natural number the way printf `%lu` renders it. -/
def natStr (n : Nat) : Str := chars (toString n)

/-- Low hex digit byte: 0-9 map to the digit characters, 10-15 to a-f. -/
def hex_digit (n : Nat) : Nat := if n < 10 then 48 + n else 87 + n

/-- Two lowercase hex digits of one byte, as printf `%02x` renders a byte. -/
def byte_hex (b : Nat) : Str := [hex_digit (b / 16), hex_digit (b % 16)]

/-- Colon-separated lowercase hex rendering of a device address, as the
printf format string for MAC addresses in metrics.c renders it (byte 58 is
the colon). -/
def mac_to_hex (addr : List Nat) : Str :=
  List.intercalate [58] (addr.map byte_hex)

/-- Render a reading given in hundredths the way printf renders the
corresponding float with the two-decimals format. -/
def fmt2 (h : Int) : Str :=
  (if h < 0 then [45] else []) ++
  natStr (h.natAbs / 100) ++ [46] ++
  (if h.natAbs % 100 < 10 then [48] else []) ++ natStr (h.natAbs % 100)

/-- One entry of the configured MAC filter list (settings field
`mac_filters` consumed by metrics.c). -/
structure MacFilter where
  mac_addr : List Nat
  enabled : Bool
  name : Str

/-- The slice of the settings structure consumed by the exporters:
hostname (`none` models a NULL pointer), the selected BTHome object id
list (models the pointer plus count pair; an empty list models NULL or
count zero), and the MAC filter list. -/
structure Settings where
  hostname : Option Str
  selected_bthome_object_ids : List Nat
  mac_filters : List MacFilter

/-- One BTHome measurement inside a cached packet: object id plus the raw
reading (kept opaque; only its registry-scaled rendering matters here). -/
structure Measurement where
  object_id : Nat
  raw : Int

/-- One cached BTHome packet: the measurement sequence of one observation. -/
structure Packet where
  measurements : List Measurement

/-- One entry of the beacon device cache, as handed to an iterator
callback: device address, signal strength at capture, packet. -/
structure CacheEntry where
  addr : List Nat
  rssi : Int
  packet : Packet

/-- The beacon metric registry collaborator (bthome.h): display name and
unit description lookups may fail; the scaling pipeline
(`bthome_get_scaling_factor` then `bthome_get_scaled_value`, finally
rendered with two decimals) is modelled by one function giving the
rendered value in hundredths. -/
structure Registry where
  object_name : Nat → Option Str
  unit_description : Nat → Option Str
  scaled_hundredths : Nat → Int → Int

/-- `is_object_id_selected` of metrics.c: false when the selection list is
NULL or empty, otherwise a linear scan for the object id. -/
def is_object_id_selected (object_id : Nat) (s : Settings) : Bool :=
  if s.selected_bthome_object_ids.isEmpty then false
  else s.selected_bthome_object_ids.contains object_id

/-- The filter-list scan inside `is_mac_allowed` of metrics.c: first
matching entry decides; a disabled match rejects at once; an enabled match
yields the configured name when non-empty (`strncpy` keeps at most 63
bytes of it, the device name buffer holding 64), else the hex address. -/
def mac_filter_scan (filters : List MacFilter) (addr : List Nat) : Option Str :=
  match filters with
  | [] => none
  | f :: fs =>
    if f.mac_addr = addr then
      if f.enabled = false then none
      else if f.name ≠ [] then some (f.name.take 63)
      else some (mac_to_hex addr)
    else mac_filter_scan fs addr

/-- `is_mac_allowed` of metrics.c: `some device_name` models returning true
with the name written to the out parameter, `none` models returning false.
With no filters configured every address is allowed under its hex name. -/
def is_mac_allowed (addr : List Nat) (s : Settings) : Option Str :=
  if s.mac_filters.isEmpty then some (mac_to_hex addr)
  else mac_filter_scan s.mac_filters addr

/-- The character rewrite loop of `make_prometheus_metric_name`: space (32)
or hyphen (45) become underscore (95); uppercase ASCII (65-90) gains 32;
everything else is unchanged. -/
def norm_byte (b : Nat) : Nat :=
  if b = 32 ∨ b = 45 then 95
  else if 65 ≤ b ∧ b ≤ 90 then b + 32
  else b

/-- `make_prometheus_metric_name` of metrics.c: snprintf the name behind
the fixed `bthome_` namespace token into a 128 byte buffer (keeping at
most 127 bytes), then rewrite every byte with the normalization loop. -/
def make_prometheus_metric_name (name : Str) : Str :=
  ((chars "bthome_" ++ name).take 127).map norm_byte

/-- The hostname fallback expression in `metrics_handler`: the configured
hostname unless it is NULL or empty, else the fixed fallback. -/
def metrics_hostname (hostname : Option Str) : Str :=
  match hostname with
  | some h => if h ≠ [] then h else chars "weight-station"
  | none => chars "weight-station"

/-- The hostname fallback expression in `mqtt_publish_sensors`, textually
repeated in mqtt_publisher.c. -/
def mqtt_hostname (hostname : Option Str) : Str :=
  match hostname with
  | some h => if h ≠ [] then h else chars "weight-station"
  | none => chars "weight-station"

/-- Body of the measurement loop in `collect_metrics_iterator` for one
measurement kind already known to be selected: linear-scan dedup, then
append while the list is below the capacity bound. -/
def add_unique_metric (cap : Nat) (acc : List Nat) (x : Nat) : List Nat :=
  if acc.contains x then acc
  else if acc.length < cap then acc ++ [x]
  else acc

/-- `collect_metrics_iterator` of metrics.c, for one cached packet: walk
its measurements, skip unselected kinds, record new kinds up to the
capacity bound. -/
def collect_metrics_iterator (s : Settings) (acc : List Nat) (p : Packet) : List Nat :=
  p.measurements.foldl
    (fun acc m =>
      if is_object_id_selected m.object_id s then add_unique_metric 256 acc m.object_id
      else acc)
    acc

/-- Phase 1 of `metrics_handler`: `bthome_cache_iterate` with
`collect_metrics_iterator` starting from an empty unique-id list of
capacity 256. -/
def metrics_collect_pass (s : Settings) (cache : List CacheEntry) : List Nat :=
  cache.foldl (fun acc e => collect_metrics_iterator s acc e.packet) []

/-- `output_rssi_iterator` of metrics.c for one cache entry: nothing when
the device filter rejects the address, else one formatted value line. -/
def output_rssi_iterator (host : Str) (s : Settings) (e : CacheEntry) : Str :=
  match is_mac_allowed e.addr s with
  | none => []
  | some device_name =>
    chars "bthome_rssi_dbm\x7bhostname=\"" ++ host ++
    chars "\",device=\"" ++ device_name ++
    chars "\",mac=\"" ++ mac_to_hex e.addr ++
    chars "\"\x7d " ++ intStr e.rssi ++ chars "\n"

/-- The cache iteration with `output_rssi_iterator`: every appended byte
of the pass, in cache order. -/
def output_rssi_pass (host : Str) (s : Settings) (cache : List CacheEntry) : Str :=
  (cache.map (output_rssi_iterator host s)).flatten

/-- `output_metric_for_id_iterator` of metrics.c for one cache entry:
nothing when the device filter rejects the address; otherwise one value
line per measurement of the packet carrying the current metric id whose
registry name resolves. -/
def output_metric_for_id_iterator (reg : Registry) (host : Str) (s : Settings)
    (current_metric_id : Nat) (e : CacheEntry) : Str :=
  match is_mac_allowed e.addr s with
  | none => []
  | some device_name =>
    (e.packet.measurements.map (fun m =>
      if m.object_id ≠ current_metric_id then []
      else
        match reg.object_name m.object_id with
        | none => []
        | some name =>
          make_prometheus_metric_name name ++
          chars "\x7bhostname=\"" ++ host ++
          chars "\",device=\"" ++ device_name ++
          chars "\",mac=\"" ++ mac_to_hex e.addr ++
          chars "\"\x7d " ++ fmt2 (reg.scaled_hundredths m.object_id m.raw) ++
          chars "\n")).flatten

/-- One iteration of the per-family loop in `metrics_handler`: a kind with
no registered display name is skipped whole; otherwise one HELP line
(with the unit description when present and non-empty), one TYPE line,
then one cache pass with `output_metric_for_id_iterator`. -/
def family_block (reg : Registry) (host : Str) (s : Settings)
    (cache : List CacheEntry) (metric_id : Nat) : Str :=
  match reg.object_name metric_id with
  | none => []
  | some name =>
    let metric_name := make_prometheus_metric_name name
    chars "# HELP " ++ metric_name ++ chars " BTHome " ++ name ++
    (match reg.unit_description metric_id with
     | none => []
     | some u => if u.length > 0 then chars " in " ++ u else []) ++
    chars "\n" ++
    chars "# TYPE " ++ metric_name ++ chars " gauge\n" ++
    (cache.map (output_metric_for_id_iterator reg host s metric_id)).flatten

/-- The weight_grams family of `metrics_handler`: headers always, the
value line only when the reading is available. -/
def weight_section (host : Str) (avail : Bool) (w : Int) : Str :=
  chars "# HELP weight_grams Current weight reading in grams\n# TYPE weight_grams gauge\n" ++
  (if avail then chars "weight_grams\x7bhostname=\"" ++ host ++ chars "\"\x7d " ++ fmt2 w ++ chars "\n"
   else [])

/-- The weight_raw family of `metrics_handler`: headers always, the value
line only when the reading is available. -/
def weight_raw_section (host : Str) (avail : Bool) (wraw : Int) : Str :=
  chars "# HELP weight_raw Current weight reading in raw units\n# TYPE weight_raw gauge\n" ++
  (if avail then chars "weight_raw\x7bhostname=\"" ++ host ++ chars "\"\x7d " ++ intStr wraw ++ chars "\n"
   else [])

/-- The wifi_rssi_dbm family of `metrics_handler`: headers always, the
value line only when the reading is non-zero. -/
def wifi_section (host : Str) (rssi : Int) : Str :=
  chars "# HELP wifi_rssi_dbm WiFi signal strength in dBm\n# TYPE wifi_rssi_dbm gauge\n" ++
  (if rssi ≠ 0 then chars "wifi_rssi_dbm\x7bhostname=\"" ++ host ++ chars "\"\x7d " ++ intStr rssi ++ chars "\n"
   else [])

/-- The uptime_seconds family of `metrics_handler`: headers and value in
one unconditional write. -/
def uptime_section (host : Str) (uptime : Int) : Str :=
  chars "# HELP uptime_seconds System uptime in seconds\n# TYPE uptime_seconds counter\n" ++
  chars "uptime_seconds\x7bhostname=\"" ++ host ++ chars "\"\x7d " ++ intStr uptime ++ chars "\n"

/-- The HELP and TYPE pair written for the BTHome RSSI family. -/
def bthome_rssi_header : Str :=
  chars "# HELP bthome_rssi_dbm BTHome device signal strength in dBm\n# TYPE bthome_rssi_dbm gauge\n"

/-- The whole BTHome block of `metrics_handler`: guarded by a non-empty
kind selection; inside, phase 1 collection, then the RSSI family, then
one family block per collected kind in discovery order. -/
def bthome_section (reg : Registry) (host : Str) (s : Settings)
    (cache : List CacheEntry) : Str :=
  if s.selected_bthome_object_ids.length > 0 then
    bthome_rssi_header ++
    output_rssi_pass host s cache ++
    ((metrics_collect_pass s cache).map (family_block reg host s cache)).flatten
  else []

/-- Everything `metrics_handler` reads from its surroundings on one pull
pass: settings, clock, weight reading (availability flag shared by the
scaled and raw accessors, the scaled value in hundredths for the
two-decimals rendering), WiFi signal strength, device cache, registry. -/
structure MetricsEnv where
  settings : Settings
  uptime_seconds : Int
  weight_available : Bool
  weight : Int
  weight_raw : Int
  wifi_rssi : Int
  cache : List CacheEntry
  reg : Registry

/-- The response buffer capacity allocated by `metrics_handler`. -/
def response_size : Nat := 8192

/-- The byte sequence `metrics_handler` intends to write on one pass:
process-level families, then the guarded BTHome block. -/
def metrics_handler_doc (env : MetricsEnv) : Str :=
  weight_section (metrics_hostname env.settings.hostname) env.weight_available env.weight ++
  weight_raw_section (metrics_hostname env.settings.hostname) env.weight_available env.weight_raw ++
  wifi_section (metrics_hostname env.settings.hostname) env.wifi_rssi ++
  uptime_section (metrics_hostname env.settings.hostname) env.uptime_seconds ++
  bthome_section env.reg (metrics_hostname env.settings.hostname) env.settings env.cache

/-- One slot of the sensor registry as read back by the push exporter
(`sensors_get_by_index`): names, rendered value in hundredths, update
timestamp (0 is the never-updated sentinel), availability, optional
device fields. -/
structure SensorData where
  metric_name : Str
  display_name : Str
  unit : Str
  value : Int
  last_updated : Int
  device_name : Str
  device_id : Str
  available : Bool

/-- Everything `mqtt_publish_sensors` reads while formatting: hostname
setting, clock values, WiFi signal strength, heap statistics, and the
registry slots in index order (`none` models a NULL slot pointer). -/
structure MqttEnv where
  hostname : Option Str
  timestamp_ms : Int
  uptime_seconds : Int
  wifi_rssi : Int
  heap_free : Nat
  heap_min_free : Nat
  heap_largest : Nat
  sensors : List (Option SensorData)

/-- The JSON object written for one included sensor by the body of the
sensor loop in `mqtt_publish_sensors` (sans the separating comma). -/
def sensor_entry_json (sen : SensorData) : Str :=
  chars "\x7b\"metric_name\":\"" ++ sen.metric_name ++
  chars "\",\"display_name\":\"" ++ sen.display_name ++
  chars "\",\"unit\":\"" ++ sen.unit ++
  chars "\",\"value\":" ++ fmt2 sen.value ++
  chars ",\"last_updated\":" ++ intStr sen.last_updated ++
  (if sen.device_name ≠ [] then chars ",\"device_name\":\"" ++ sen.device_name ++ chars "\"" else []) ++
  (if sen.device_id ≠ [] then chars ",\"device_id\":\"" ++ sen.device_id ++ chars "\"" else []) ++
  chars "\x7d"

/-- The sensor loop of `mqtt_publish_sensors` with its `first_sensor`
flag: NULL slots and slots with an empty metric name are skipped, so are
unavailable or never-updated sensors; a comma is written before an entry
exactly when the flag has already been cleared. -/
def sensors_array_loop (slots : List (Option SensorData)) (first_sensor : Bool) : Str :=
  match slots with
  | [] => []
  | o :: rest =>
    match o with
    | none => sensors_array_loop rest first_sensor
    | some sen =>
      if sen.metric_name = [] then sensors_array_loop rest first_sensor
      else if sen.available = false ∨ sen.last_updated = 0 then sensors_array_loop rest first_sensor
      else (if first_sensor = false then chars "," else []) ++
           sensor_entry_json sen ++ sensors_array_loop rest false

/-- The chunk sequence `mqtt_publish_sensors` appends into the shared JSON
buffer, in append order (the sensors array is one chunk here; its own
writes concatenate to exactly this byte sequence). -/
def mqtt_chunks (env : MqttEnv) : List Str :=
  [chars "\x7b",
   chars "\"timestamp\":" ++ intStr env.timestamp_ms ++ chars ",",
   chars "\"hostname\":\"" ++ mqtt_hostname env.hostname ++ chars "\",",
   chars "\"uptime_seconds\":" ++ intStr env.uptime_seconds ++ chars ",",
   chars "\"wifi_rssi_dbm\":" ++ intStr env.wifi_rssi ++ chars ",",
   chars "\"heap_free_bytes\":" ++ natStr env.heap_free ++ chars ",",
   chars "\"heap_min_free_bytes\":" ++ natStr env.heap_min_free ++ chars ",",
   chars "\"heap_largest_free_block_bytes\":" ++ natStr env.heap_largest ++ chars ",",
   chars "\"sensors\":[",
   sensors_array_loop env.sensors true,
   chars "]",
   chars "\x7d"]

/-- The whole JSON document `mqtt_publish_sensors` intends to write. -/
def mqtt_json_doc (env : MqttEnv) : Str := (mqtt_chunks env).flatten

/-- The capacity of the shared JSON formatting buffer
(`json_buffer_size` in mqtt_publisher.c). -/
def json_buffer_size : Nat := 4096

/-- The bounded wait, in milliseconds, passed to the lock acquisition in
`mqtt_publish_sensors` (`pdMS_TO_TICKS(1000)`). -/
def mqtt_lock_timeout_ms : Nat := 1000

/-- Result signal of one `mqtt_publish_sensors` call. -/
inductive PublishOutcome
  | published (payload : Str)
  | failed
deriving DecidableEq

/-- Control flow of `mqtt_publish_sensors`, with the outcomes of the
external steps (client connected, mutex and buffer created, single
bounded-wait lock acquisition) as inputs; the second component is the
shared formatting buffer content after the call. Failure paths before
the formatting stage leave the buffer untouched. -/
def mqtt_publish_sensors (enabled initialized lock_acquired : Bool)
    (env : MqttEnv) (buf : Str) : PublishOutcome × Str :=
  if enabled = false then (.failed, buf)
  else if initialized = false then (.failed, buf)
  else if lock_acquired = false then (.failed, buf)
  else (.published (mqtt_json_doc env), mqtt_json_doc env)

/-- The offset bookkeeping the source actually performs on both export
paths: each formatted write advances the offset by the full return value
of snprintf, which is the length the formatted text WOULD have, whether
or not it was truncated to the remaining space. -/
def snprintf_chain_offset (texts : List Str) : Nat :=
  texts.foldl (fun off t => off + t.length) 0

/-- Modelled from the spec: the bounded text buffer append contract of
section 4.1 (the repository has no such helper; each call site chains
snprintf by hand). The cursor advances only by the bytes actually
written, clamped to the remaining capacity. -/
def spec_buffer_append (cap off : Nat) (t : Str) : Nat :=
  min (off + t.length) cap

/-- Modelled from the spec: cursor after appending a chunk sequence into a
bounded text buffer of capacity `cap` under the section 4.1 contract. -/
def spec_buffer_offset (cap : Nat) (texts : List Str) : Nat :=
  texts.foldl (spec_buffer_append cap) 0

/-- First-occurrence deduplication of a list: specification-side view of
what the linear-scan dedup of the discovery pass computes. -/
def dedup_first : List Nat → List Nat
  | [] => []
  | x :: xs => x :: dedup_first (xs.filter (fun y => y != x))
termination_by l => l.length
decreasing_by
  simp only [List.length_cons]
  exact Nat.lt_succ_of_le (List.length_filter_le _ _)

theorem mem_dedup_first {a : Nat} : ∀ {l : List Nat}, a ∈ dedup_first l ↔ a ∈ l := by
  intro l
  induction l using dedup_first.induct with
  | case1 => simp [dedup_first]
  | case2 x xs ih =>
    rw [dedup_first]
    by_cases hax : a = x
    · subst hax; simp
    · simp only [List.mem_cons, hax, false_or, ih, List.mem_filter]
      simp [hax]

theorem nodup_dedup_first : ∀ {l : List Nat}, (dedup_first l).Nodup := by
  intro l
  induction l using dedup_first.induct with
  | case1 => simp [dedup_first]
  | case2 x xs ih =>
    rw [dedup_first]
    refine List.nodup_cons.mpr ⟨?_, ih⟩
    intro hx
    have := (mem_dedup_first).mp hx
    simp [List.mem_filter] at this

theorem contains_append_singleton (acc : List Nat) (x y : Nat) :
    ((acc ++ [x]).contains y) = (acc.contains y || y == x) := by
  by_cases h : y = x <;> simp [h]

theorem filter_not_contains_append (acc : List Nat) (x : Nat) (xs : List Nat) :
    xs.filter (fun y => !((acc ++ [x]).contains y)) =
      (xs.filter (fun y => !(acc.contains y))).filter (fun y => y != x) := by
  rw [List.filter_filter]
  apply List.filter_congr
  intro y _
  rw [contains_append_singleton]
  by_cases h : y = x <;> by_cases hc : y ∈ acc <;> simp [h, hc, bne]

theorem foldl_add_unique_metric (cap : Nat) :
    ∀ (xs acc : List Nat),
      xs.foldl (add_unique_metric cap) acc =
        acc ++ (dedup_first (xs.filter (fun y => !(acc.contains y)))).take (cap - acc.length) := by
  intro xs
  induction xs with
  | nil => intro acc; simp [dedup_first]
  | cons x xs ih =>
    intro acc
    rw [List.foldl_cons]
    by_cases hc : x ∈ acc
    · have hstep : add_unique_metric cap acc x = acc := by
        simp [add_unique_metric, hc]
      have hfil : (x :: xs).filter (fun y => !(acc.contains y)) =
          xs.filter (fun y => !(acc.contains y)) := by
        simp [List.filter_cons, hc]
      rw [hstep, ih acc, hfil]
    · by_cases hlen : acc.length < cap
      · have hstep : add_unique_metric cap acc x = acc ++ [x] := by
          simp [add_unique_metric, hc, hlen]
        rw [hstep, ih (acc ++ [x])]
        have hfil : (x :: xs).filter (fun y => !(acc.contains y)) =
            x :: xs.filter (fun y => !(acc.contains y)) := by
          simp [List.filter_cons, hc]
        rw [hfil, dedup_first, filter_not_contains_append]
        obtain ⟨k, hk⟩ : ∃ k, cap - acc.length = k + 1 :=
          ⟨cap - acc.length - 1, by omega⟩
        rw [hk, List.take_succ_cons]
        have hk' : cap - (acc ++ [x]).length = k := by
          simp only [List.length_append, List.length_singleton]
          omega
        rw [hk', List.append_assoc, List.singleton_append]
      · have hstep : add_unique_metric cap acc x = acc := by
          simp [add_unique_metric, hc, hlen]
        have hz : cap - acc.length = 0 := by omega
        rw [hstep, ih acc, hz]
        simp

/-- The stream of selected measurement kinds of the whole cache, in
iteration order: the object ids of every measurement of every cached
packet that pass `is_object_id_selected`. -/
def selected_kinds (s : Settings) (cache : List CacheEntry) : List Nat :=
  (((cache.map (fun e => e.packet.measurements)).flatten).map Measurement.object_id).filter
    (fun k => is_object_id_selected k s)

theorem foldl_if_selected (s : Settings) :
    ∀ (ms : List Measurement) (acc : List Nat),
      ms.foldl
        (fun acc m =>
          if is_object_id_selected m.object_id s then add_unique_metric 256 acc m.object_id
          else acc) acc =
      ((ms.map Measurement.object_id).filter
        (fun k => is_object_id_selected k s)).foldl (add_unique_metric 256) acc := by
  intro ms
  induction ms with
  | nil => intro acc; rfl
  | cons m tl ih =>
    intro acc
    rw [List.foldl_cons, List.map_cons]
    by_cases hsel : is_object_id_selected m.object_id s
    · simp only [List.filter_cons, hsel, if_true, if_pos, List.foldl_cons]
      rw [ih]
    · simp only [List.filter_cons, hsel, Bool.false_eq_true, if_false]
      exact ih acc

theorem collect_metrics_iterator_eq_foldl (s : Settings) (p : Packet) (acc : List Nat) :
    collect_metrics_iterator s acc p =
      ((p.measurements.map Measurement.object_id).filter
        (fun k => is_object_id_selected k s)).foldl (add_unique_metric 256) acc :=
  foldl_if_selected s p.measurements acc

theorem metrics_collect_pass_eq_foldl (s : Settings) :
    ∀ (cache : List CacheEntry) (acc : List Nat),
      cache.foldl (fun acc e => collect_metrics_iterator s acc e.packet) acc =
        (selected_kinds s cache).foldl (add_unique_metric 256) acc := by
  intro cache
  induction cache with
  | nil => intro acc; rfl
  | cons e cs ih =>
    intro acc
    rw [List.foldl_cons, ih, collect_metrics_iterator_eq_foldl]
    have hsplit : selected_kinds s (e :: cs) =
        ((e.packet.measurements.map Measurement.object_id).filter
          (fun k => is_object_id_selected k s)) ++ selected_kinds s cs := by
      simp [selected_kinds, List.filter_append]
    rw [hsplit, List.foldl_append]

theorem metrics_collect_pass_eq (s : Settings) (cache : List CacheEntry) :
    metrics_collect_pass s cache = (dedup_first (selected_kinds s cache)).take 256 := by
  unfold metrics_collect_pass
  rw [metrics_collect_pass_eq_foldl, foldl_add_unique_metric]
  simp

theorem norm_byte_idem (b : Nat) : norm_byte (norm_byte b) = norm_byte b := by
  simp only [norm_byte]
  split_ifs <;> omega

/-- Modelled from the spec: stripping the fixed namespace token (the seven
bytes of `bthome_`) from a normalized identifier; the source has no such
helper, the spec's idempotence property quantifies over it. -/
def drop_namespace (s : Str) : Str := s.drop 7

theorem make_prometheus_metric_name_short (name : Str) (h : name.length ≤ 120) :
    make_prometheus_metric_name name = chars "bthome_" ++ name.map norm_byte := by
  unfold make_prometheus_metric_name
  have h7 : (chars "bthome_").length = 7 := by decide
  rw [List.take_of_length_le (by rw [List.length_append, h7]; omega), List.map_append]
  congr 1

theorem make_prometheus_metric_name_eq (name : Str) :
    make_prometheus_metric_name name =
      chars "bthome_" ++ (name.take 120).map norm_byte := by
  unfold make_prometheus_metric_name
  rw [List.take_append_eq_append_take]
  have h1 : (chars "bthome_").take 127 = chars "bthome_" := by decide
  have h2 : 127 - (chars "bthome_").length = 120 := by decide
  rw [h1, h2, List.map_append]
  congr 1

theorem output_rssi_pass_filter (host : Str) (s : Settings) :
    ∀ cache : List CacheEntry,
      output_rssi_pass host s cache =
        ((cache.filter (fun e => (is_mac_allowed e.addr s).isSome)).map
          (output_rssi_iterator host s)).flatten := by
  intro cache
  induction cache with
  | nil => rfl
  | cons e cs ih =>
    have hpass : output_rssi_pass host s (e :: cs) =
        output_rssi_iterator host s e ++ output_rssi_pass host s cs := by
      simp [output_rssi_pass]
    cases hm : is_mac_allowed e.addr s with
    | none =>
      have hiter : output_rssi_iterator host s e = [] := by
        simp [output_rssi_iterator, hm]
      rw [hpass, hiter, List.nil_append, ih, List.filter_cons, if_neg (by simp [hm])]
    | some dn =>
      rw [hpass, ih, List.filter_cons, if_pos (by simp [hm]), List.map_cons,
        List.flatten_cons]

theorem mac_filter_scan_miss :
    ∀ (filters : List MacFilter) (addr : List Nat),
      (∀ f ∈ filters, f.mac_addr ≠ addr) → mac_filter_scan filters addr = none := by
  intro filters addr
  induction filters with
  | nil => intro _; rfl
  | cons g gs ih =>
    intro h
    rw [mac_filter_scan]
    rw [if_neg (h g (List.mem_cons_self g gs))]
    exact ih (fun f hf => h f (List.mem_cons_of_mem g hf))

theorem mac_filter_scan_hit :
    ∀ (filters : List MacFilter) (addr : List Nat) (f : MacFilter),
      (filters.map MacFilter.mac_addr).Nodup → f ∈ filters → f.mac_addr = addr →
      mac_filter_scan filters addr =
        (if f.enabled = false then none
         else if f.name ≠ [] then some (f.name.take 63)
         else some (mac_to_hex addr)) := by
  intro filters
  induction filters with
  | nil => intro addr f _ hf; exact absurd hf (List.not_mem_nil f)
  | cons g gs ih =>
    intro addr f hnd hf haddr
    rw [List.map_cons, List.nodup_cons] at hnd
    by_cases hg : g.mac_addr = addr
    · have hfg : f = g := by
        rcases List.mem_cons.mp hf with h | h
        · exact h
        · exfalso
          apply hnd.1
          rw [hg, ← haddr]
          exact List.mem_map_of_mem MacFilter.mac_addr h
      rw [mac_filter_scan, if_pos hg, hfg]
    · have hfgs : f ∈ gs := by
        rcases List.mem_cons.mp hf with h | h
        · exact absurd (h ▸ haddr) hg
        · exact h
      rw [mac_filter_scan, if_neg hg]
      exact ih addr f hnd.2 hfgs haddr

/-- The inclusion rule of the sensor loop, as one function: the JSON entry
for slots holding a registered (non-NULL, named), available, ever-updated
sensor; nothing for every other slot. -/
def sensor_included_entry (o : Option SensorData) : Option Str :=
  match o with
  | none => none
  | some sen =>
    if sen.metric_name = [] then none
    else if sen.available = false ∨ sen.last_updated = 0 then none
    else some (sensor_entry_json sen)

theorem intercalate_cons (s : Str) :
    ∀ (l : List Str) (e : Str),
      List.intercalate s (e :: l) = e ++ (l.map (fun t => s ++ t)).flatten := by
  intro l
  induction l with
  | nil => intro e; simp [List.intercalate]
  | cons x t ih =>
    intro e
    have hx := ih x
    simp only [List.intercalate] at hx ⊢
    rw [List.intersperse_cons_cons, List.flatten_cons, List.flatten_cons,
      List.map_cons, List.flatten_cons, hx, List.append_assoc]

theorem sensors_array_loop_rest (slots : List (Option SensorData)) :
    sensors_array_loop slots false =
      ((slots.filterMap sensor_included_entry).map (fun t => chars "," ++ t)).flatten := by
  induction slots with
  | nil => rfl
  | cons o rest ih =>
    cases o with
    | none => simpa [sensors_array_loop, sensor_included_entry] using ih
    | some sen =>
      by_cases h1 : sen.metric_name = []
      · simpa [sensors_array_loop, sensor_included_entry, h1] using ih
      · by_cases h2 : sen.available = false ∨ sen.last_updated = 0
        · simpa [sensors_array_loop, sensor_included_entry, h1, h2] using ih
        · have hentry : sensor_included_entry (some sen) = some (sensor_entry_json sen) := by
            simp [sensor_included_entry, h1, h2]
          have hloop : sensors_array_loop (some sen :: rest) false =
              (chars "," ++ sensor_entry_json sen) ++ sensors_array_loop rest false := by
            simp [sensors_array_loop, h1, h2, List.append_assoc]
          rw [hloop, ih, List.filterMap_cons, hentry, List.map_cons, List.flatten_cons]

theorem sensors_array_loop_intercalate (slots : List (Option SensorData)) :
    sensors_array_loop slots true =
      List.intercalate (chars ",") (slots.filterMap sensor_included_entry) := by
  induction slots with
  | nil => rfl
  | cons o rest ih =>
    cases o with
    | none => simpa [sensors_array_loop, sensor_included_entry] using ih
    | some sen =>
      by_cases h1 : sen.metric_name = []
      · simpa [sensors_array_loop, sensor_included_entry, h1] using ih
      · by_cases h2 : sen.available = false ∨ sen.last_updated = 0
        · simpa [sensors_array_loop, sensor_included_entry, h1, h2] using ih
        · have hentry : sensor_included_entry (some sen) = some (sensor_entry_json sen) := by
            simp [sensor_included_entry, h1, h2]
          have hloop : sensors_array_loop (some sen :: rest) true =
              sensor_entry_json sen ++ sensors_array_loop rest false := by
            simp [sensors_array_loop, h1, h2]
          rw [hloop, sensors_array_loop_rest, List.filterMap_cons, hentry,
            intercalate_cons]

theorem snprintf_chain_offset_eq_sum :
    ∀ (texts : List Str) (n : Nat),
      texts.foldl (fun off t => off + t.length) n = n + (texts.map List.length).sum := by
  intro texts
  induction texts with
  | nil => intro n; simp
  | cons t ts ih =>
    intro n
    rw [List.foldl_cons, ih, List.map_cons, List.sum_cons]
    omega

theorem spec_buffer_offset_le (cap : Nat) (texts : List Str) :
    spec_buffer_offset cap texts ≤ cap := by
  unfold spec_buffer_offset
  have aux : ∀ (ts : List Str) (off : Nat), off ≤ cap →
      ts.foldl (spec_buffer_append cap) off ≤ cap := by
    intro ts
    induction ts with
    | nil => intro off h; exact h
    | cons t ts ih =>
      intro off _
      rw [List.foldl_cons]
      exact ih _ (Nat.min_le_right _ _)
  exact aux texts 0 (Nat.zero_le cap)

/-- The environment of the failing push pass for the buffer-cursor claim:
an oversized configured hostname, everything else idle. -/
def c1_env : MqttEnv :=
  ⟨some (List.replicate 5000 97), 0, 0, 0, 0, 0, 0, []⟩

/-- C1: the claim states that on both export passes the buffer cursor
stays within the capacity, each append advancing it only by the bytes
actually written. The code instead advances the offset by the full
snprintf return value: with an oversized hostname, the push pass drives
the offset past the 4096 byte capacity of the shared JSON buffer, while
the spec-modelled clamped append would keep any chunk sequence within
capacity. -/
theorem C1_cursor_exceeds_capacity :
    json_buffer_size < snprintf_chain_offset (mqtt_chunks c1_env) ∧
    spec_buffer_offset json_buffer_size (mqtt_chunks c1_env) ≤ json_buffer_size := by
  constructor
  · have hne : (List.replicate 5000 97 : Str) ≠ [] := by
      intro h
      have := congrArg List.length h
      simp only [List.length_replicate, List.length_nil] at this
      exact absurd this (by omega)
    have hh : mqtt_hostname c1_env.hostname = List.replicate 5000 97 := by
      show mqtt_hostname (some (List.replicate 5000 97)) = _
      simp only [mqtt_hostname]
      rw [if_pos hne]
    have hmem : (chars "\"hostname\":\"" ++ mqtt_hostname c1_env.hostname ++ chars "\",") ∈
        mqtt_chunks c1_env := by
      unfold mqtt_chunks
      exact List.mem_cons_of_mem _ (List.mem_cons_of_mem _ (List.mem_cons_self _ _))
    have hlen : 5000 ≤
        (chars "\"hostname\":\"" ++ mqtt_hostname c1_env.hostname ++ chars "\",").length := by
      rw [hh]
      simp only [List.length_append, List.length_replicate]
      omega
    have hsum : 5000 ≤ snprintf_chain_offset (mqtt_chunks c1_env) := by
      unfold snprintf_chain_offset
      rw [snprintf_chain_offset_eq_sum]
      have := List.single_le_sum (fun x _ => Nat.zero_le x) _
        (List.mem_map_of_mem List.length hmem)
      omega
    unfold json_buffer_size
    omega
  · exact spec_buffer_offset_le _ _

/-- A registry with no registered names or units, for concrete passes. -/
def c2_reg : Registry := ⟨fun _ => none, fun _ => none, fun _ _ => 0⟩

/-- Concrete pull pass with an EMPTY kind selection but a non-empty device
cache: one device at aa:bb:cc:dd:ee:ff with signal strength -60. -/
def c2_env : MetricsEnv :=
  ⟨⟨some (chars "station1"), [], []⟩, 5, false, 0, 0, -42,
   [⟨[170, 187, 204, 221, 238, 255], -60, ⟨[⟨1, 0⟩]⟩⟩], c2_reg⟩

set_option maxRecDepth 100000 in
/-- C2 as stated is false on the code: with an empty configured kind
selection the whole BTHome block of `metrics_handler` is skipped, so no
BTHome RSSI family (not even its HELP and TYPE pair) appears in the
document although a cached device passes the device filter. -/
theorem C2_counterexample :
    ¬ (chars "bthome_rssi_dbm" <:+: metrics_handler_doc c2_env) := by decide

/-- C2 (amended): on every pull pass whose configured kind-selection set
is non-empty, the BTHome RSSI family is emitted: one HELP and TYPE header
pair followed by one value line per cached device passing the device
filter, in cache order, each line in the documented format, filtered only
by device identity and never by kind selection. -/
theorem C2_rssi_family (env : MetricsEnv)
    (hsel : env.settings.selected_bthome_object_ids ≠ []) :
    (∃ pre post : Str,
      metrics_handler_doc env =
        pre ++ bthome_rssi_header ++
        ((env.cache.filter
            (fun e => (is_mac_allowed e.addr env.settings).isSome)).map
          (output_rssi_iterator (metrics_hostname env.settings.hostname) env.settings)).flatten
        ++ post) ∧
    (∀ (e : CacheEntry) (dn : Str), is_mac_allowed e.addr env.settings = some dn →
      output_rssi_iterator (metrics_hostname env.settings.hostname) env.settings e =
        chars "bthome_rssi_dbm\x7bhostname=\"" ++ metrics_hostname env.settings.hostname ++
        chars "\",device=\"" ++ dn ++ chars "\",mac=\"" ++ mac_to_hex e.addr ++
        chars "\"\x7d " ++ intStr e.rssi ++ chars "\n") := by
  constructor
  · refine ⟨weight_section (metrics_hostname env.settings.hostname) env.weight_available env.weight ++
      weight_raw_section (metrics_hostname env.settings.hostname) env.weight_available env.weight_raw ++
      wifi_section (metrics_hostname env.settings.hostname) env.wifi_rssi ++
      uptime_section (metrics_hostname env.settings.hostname) env.uptime_seconds,
      ((metrics_collect_pass env.settings env.cache).map
        (family_block env.reg (metrics_hostname env.settings.hostname) env.settings env.cache)).flatten,
      ?_⟩
    have hb : bthome_section env.reg (metrics_hostname env.settings.hostname) env.settings
        env.cache =
        bthome_rssi_header ++
        output_rssi_pass (metrics_hostname env.settings.hostname) env.settings env.cache ++
        ((metrics_collect_pass env.settings env.cache).map
          (family_block env.reg (metrics_hostname env.settings.hostname) env.settings
            env.cache)).flatten := by
      unfold bthome_section
      rw [if_pos (List.length_pos.mpr hsel)]
    unfold metrics_handler_doc
    rw [hb, output_rssi_pass_filter]
    simp [List.append_assoc]
  · intro e dn h
    simp [output_rssi_iterator, h]

/-- The cached device of the end-to-end RSSI example. -/
def c2w_entry : CacheEntry := ⟨[170, 187, 204, 221, 238, 255], -60, ⟨[⟨1, 0⟩]⟩⟩

/-- Concrete pull pass for the RSSI example: hostname station1, one
selected kind, no MAC filters, one cached device. -/
def c2w_env : MetricsEnv :=
  ⟨⟨some (chars "station1"), [1], []⟩, 5, false, 0, 0, 0, [c2w_entry], c2_reg⟩

set_option maxRecDepth 100000 in
theorem C2_rssi_family_witness :
    output_rssi_iterator (metrics_hostname c2w_env.settings.hostname) c2w_env.settings c2w_entry =
      chars "bthome_rssi_dbm\x7bhostname=\"station1\",device=\"aa:bb:cc:dd:ee:ff\",mac=\"aa:bb:cc:dd:ee:ff\"\x7d -60\n" := by
  have h := (C2_rssi_family c2w_env (by decide)).2 c2w_entry (mac_to_hex c2w_entry.addr)
    (by decide)
  exact h.trans (by decide)

/-- C3: for every settings and cache sequence, the phase-1 discovery list
equals the first 256 distinct entries, in first-seen order, of the stream
of selected measurement kinds of the cache; hence it has no duplicate
kind, never exceeds 256 entries, and contains a kind exactly when the
kind is selected and appeared in some cached packet while the list was
below its capacity. Every member is a selected kind of the cache. -/
theorem C3_discovery_list (s : Settings) (cache : List CacheEntry) :
    metrics_collect_pass s cache = (dedup_first (selected_kinds s cache)).take 256 ∧
    (metrics_collect_pass s cache).Nodup ∧
    (metrics_collect_pass s cache).length ≤ 256 ∧
    (∀ k, k ∈ metrics_collect_pass s cache →
      is_object_id_selected k s = true ∧
      ∃ e ∈ cache, ∃ m ∈ e.packet.measurements, m.object_id = k) := by
  refine ⟨metrics_collect_pass_eq s cache, ?_, ?_, ?_⟩
  · rw [metrics_collect_pass_eq]
    exact nodup_dedup_first.sublist (List.take_sublist _ _)
  · rw [metrics_collect_pass_eq, List.length_take]
    exact Nat.min_le_left _ _
  · intro k hk
    rw [metrics_collect_pass_eq] at hk
    have h2 : k ∈ selected_kinds s cache :=
      mem_dedup_first.mp ((List.take_sublist _ _).mem hk)
    simp only [selected_kinds, List.mem_filter, List.mem_map, List.mem_flatten] at h2
    obtain ⟨⟨m, ⟨l, ⟨e, he, hle⟩, hml⟩, hok⟩, hsel⟩ := h2
    exact ⟨hsel, e, he, m, hle ▸ hml, hok⟩

/-- C4: device-identity lookup. With no MAC filters every address is
included under its hex name; with filters (addresses pairwise distinct,
configured names fitting the 64-byte device-name buffer) an address
matching an entry is included with the entry's name (hex address when the
name is empty) exactly when the entry is enabled, an address matching no
entry is excluded; and the devices whose lines appear in the RSSI output
pass are exactly the filter-passing subset of the cached devices. -/
theorem C4_device_identity (addr : List Nat) (s : Settings) :
    (s.mac_filters = [] → is_mac_allowed addr s = some (mac_to_hex addr)) ∧
    (∀ f : MacFilter,
      (s.mac_filters.map MacFilter.mac_addr).Nodup →
      f ∈ s.mac_filters → f.mac_addr = addr → f.name.length ≤ 63 →
      is_mac_allowed addr s =
        (if f.enabled then
          some (if f.name ≠ [] then f.name else mac_to_hex addr)
         else none)) ∧
    (s.mac_filters ≠ [] → (∀ f ∈ s.mac_filters, f.mac_addr ≠ addr) →
      is_mac_allowed addr s = none) ∧
    (∀ (host : Str) (cache : List CacheEntry),
      output_rssi_pass host s cache =
        ((cache.filter (fun e => (is_mac_allowed e.addr s).isSome)).map
          (output_rssi_iterator host s)).flatten) := by
  refine ⟨?_, ?_, ?_, fun host => output_rssi_pass_filter host s⟩
  · intro h
    simp [is_mac_allowed, h]
  · intro f hnd hf haddr h63
    have hne : s.mac_filters ≠ [] := by
      intro h
      rw [h] at hf
      exact absurd hf (List.not_mem_nil f)
    unfold is_mac_allowed
    rw [if_neg (by simp [List.isEmpty_iff, hne])]
    rw [mac_filter_scan_hit s.mac_filters addr f hnd hf haddr]
    cases hfe : f.enabled with
    | false => simp [hfe]
    | true =>
      by_cases hname : f.name = []
      · simp [hfe, hname]
      · simp [hfe, hname, List.take_of_length_le h63]
  · intro hne hmiss
    unfold is_mac_allowed
    rw [if_neg (by simp [List.isEmpty_iff, hne])]
    exact mac_filter_scan_miss s.mac_filters addr hmiss

/-- The single enabled MAC filter of the C4 witness configuration. -/
def c4_filter : MacFilter := ⟨[170, 187, 204, 221, 238, 255], true, chars "kitchen"⟩

/-- Settings with exactly one enabled, named MAC filter. -/
def c4_settings : Settings := ⟨none, [], [c4_filter]⟩

theorem C4_device_identity_witness :
    is_mac_allowed [170, 187, 204, 221, 238, 255] c4_settings = some (chars "kitchen") := by
  have h := (C4_device_identity [170, 187, 204, 221, 238, 255] c4_settings).2.1 c4_filter
    (by decide) (List.mem_cons_self _ _) (by decide) (by decide)
  exact h.trans (by decide)

/-- C5: the normalizer prefixes the fixed namespace token and rewrites
bytes (space and hyphen to underscore, uppercase ASCII to lowercase,
everything else unchanged); for any input it is idempotent after
stripping the namespace token. The short-input equation holds whenever
the name fits the 128-byte buffer behind the 7-byte token. -/
theorem C5_normalizer (name : Str) :
    (name.length ≤ 120 →
      make_prometheus_metric_name name = chars "bthome_" ++ name.map norm_byte) ∧
    make_prometheus_metric_name (drop_namespace (make_prometheus_metric_name name)) =
      make_prometheus_metric_name name ∧
    norm_byte 32 = 95 ∧ norm_byte 45 = 95 ∧
    (∀ b, 65 ≤ b → b ≤ 90 → norm_byte b = b + 32) ∧
    (∀ b, b ≠ 32 → b ≠ 45 → ¬(65 ≤ b ∧ b ≤ 90) → norm_byte b = b) := by
  refine ⟨make_prometheus_metric_name_short name, ?_, rfl, rfl, ?_, ?_⟩
  · have hmap : ∀ l : Str, (l.map norm_byte).map norm_byte = l.map norm_byte := by
      intro l
      rw [List.map_map]
      exact List.map_congr_left (fun b _ => norm_byte_idem b)
    rw [make_prometheus_metric_name_eq name]
    have hdrop : drop_namespace (chars "bthome_" ++ (name.take 120).map norm_byte) =
        (name.take 120).map norm_byte := by
      unfold drop_namespace
      have h7 : (7 : Nat) = (chars "bthome_").length := by decide
      rw [h7, List.drop_left]
    rw [hdrop]
    rw [make_prometheus_metric_name_short _ (by
      rw [List.length_map, List.length_take]
      exact Nat.min_le_left _ _)]
    rw [hmap]
  · intro b h1 h2
    unfold norm_byte
    rw [if_neg (by omega), if_pos (by omega)]
  · intro b h1 h2 h3
    unfold norm_byte
    rw [if_neg (by omega), if_neg h3]

theorem C5_normalizer_witness :
    make_prometheus_metric_name (chars "Temp- X") = chars "bthome_temp__x" := by
  have h := (C5_normalizer (chars "Temp- X")).1 (by decide)
  exact h.trans (by decide)

/-- C6: the sensors array of the push JSON document contains exactly one
entry per registered slot whose sensor is available and ever updated, in
index order, with exactly one comma between adjacent entries and none
leading or trailing (the intercalate form); and for a registered sensor
the inclusion rule is exactly availability plus a non-sentinel update
timestamp. -/
theorem C6_sensor_array (slots : List (Option SensorData)) :
    sensors_array_loop slots true =
      List.intercalate (chars ",") (slots.filterMap sensor_included_entry) ∧
    (∀ sen : SensorData, sen.metric_name ≠ [] →
      (sensor_included_entry (some sen) = some (sensor_entry_json sen) ↔
        sen.available = true ∧ sen.last_updated ≠ 0)) := by
  refine ⟨sensors_array_loop_intercalate slots, ?_⟩
  intro sen hname
  constructor
  · intro h
    by_contra hcon
    have h2 : sen.available = false ∨ sen.last_updated = 0 := by
      rcases Bool.eq_false_or_eq_true sen.available with hb | hb
      · right
        by_contra hlu
        exact hcon ⟨hb, hlu⟩
      · exact Or.inl hb
    simp [sensor_included_entry, hname, h2] at h
  · intro ⟨h1, h2⟩
    have hor : ¬(sen.available = false ∨ sen.last_updated = 0) := by
      intro hx
      rcases hx with hx | hx
      · rw [h1] at hx
        exact absurd hx (by decide)
      · exact h2 hx
    simp [sensor_included_entry, hname, hor]

/-- First sensor of the comma-correctness example: available, updated. -/
def sensorA : SensorData := ⟨chars "m1", chars "d1", chars "g", 150, 7, [], [], true⟩

/-- Second sensor of the comma-correctness example: unavailable. -/
def sensorB : SensorData := ⟨chars "m2", chars "d2", chars "g", 250, 5, [], [], false⟩

/-- Third sensor of the comma-correctness example: available, updated. -/
def sensorC : SensorData := ⟨chars "m3", chars "d3", chars "g", 350, 9, [], [], true⟩

set_option maxRecDepth 100000 in
theorem C6_sensor_array_witness :
    sensors_array_loop [some sensorA, some sensorB, some sensorC] true =
      sensor_entry_json sensorA ++ chars "," ++ sensor_entry_json sensorC ∧
    sensor_included_entry (some sensorA) = some (sensor_entry_json sensorA) := by
  constructor
  · have h := (C6_sensor_array [some sensorA, some sensorB, some sensorC]).1
    rw [h]
    decide
  · exact ((C6_sensor_array [some sensorA]).2 sensorA (by decide)).mpr ⟨rfl, by decide⟩

/-- C7: the push publish call waits on the shared-buffer lock with the
bounded 1000 ms timeout, and whenever the single acquisition attempt
fails it returns the failure signal at once with the shared buffer
unchanged — no bytes written, no internal retry (the model makes exactly
one acquisition decision per call). -/
theorem C7_lock_timeout :
    mqtt_lock_timeout_ms = 1000 ∧
    (∀ (enabled initialized : Bool) (env : MqttEnv) (buf : Str),
      mqtt_publish_sensors enabled initialized false env buf =
        (PublishOutcome.failed, buf)) := by
  refine ⟨rfl, ?_⟩
  intro enabled initialized env buf
  cases enabled <;> cases initialized <;> rfl

/-- C8: a kind whose display name is unregistered contributes nothing to
the emission phase — no HELP line, no TYPE line, no value lines — and
removing it from the discovery list leaves the emitted bytes unchanged,
so the remaining kinds are emitted exactly as without it. -/
theorem C8_unregistered_kind_skip (reg : Registry) (host : Str) (s : Settings)
    (cache : List CacheEntry) (id : Nat) (h : reg.object_name id = none) :
    family_block reg host s cache id = [] ∧
    (∀ pre post : List Nat,
      ((pre ++ id :: post).map (family_block reg host s cache)).flatten =
        ((pre ++ post).map (family_block reg host s cache)).flatten) := by
  have hb : family_block reg host s cache id = [] := by
    unfold family_block
    rw [h]
  refine ⟨hb, ?_⟩
  intro pre post
  simp [List.map_append, List.flatten_append, hb]

/-- A registry with no registered display names, for the C8 witness. -/
def c8_reg : Registry := ⟨fun _ => none, fun _ => none, fun _ _ => 0⟩

theorem C8_unregistered_kind_skip_witness :
    family_block c8_reg (chars "h") ⟨none, [5], []⟩ [] 5 = [] :=
  (C8_unregistered_kind_skip c8_reg (chars "h") ⟨none, [5], []⟩ [] 5 rfl).1

/-- C9: both exporters resolve the hostname with the same rule: the fixed
fallback when the configured hostname is NULL or empty, otherwise exactly
the configured hostname. -/
theorem C9_hostname_fallback :
    (∀ h : Option Str, metrics_hostname h = mqtt_hostname h) ∧
    metrics_hostname none = chars "weight-station" ∧
    metrics_hostname (some []) = chars "weight-station" ∧
    mqtt_hostname none = chars "weight-station" ∧
    mqtt_hostname (some []) = chars "weight-station" ∧
    (∀ h : Str, h ≠ [] → metrics_hostname (some h) = h) := by
  refine ⟨fun h => rfl, rfl, by simp [metrics_hostname], rfl, by simp [mqtt_hostname], ?_⟩
  intro h hh
  simp [metrics_hostname, hh]

theorem C9_hostname_fallback_witness :
    metrics_hostname (some (chars "station1")) = chars "station1" :=
  (C9_hostname_fallback).2.2.2.2.2 (chars "station1") (by decide)

/-- C10: the weight_grams and weight_raw families always emit their HELP
and TYPE headers and emit a value line exactly when the weight reading is
available; the wifi_rssi_dbm family always emits its headers and emits a
value line exactly when the WiFi signal strength is non-zero, so a true
reading of 0 dBm yields a header-only family. -/
theorem C10_process_families (host : Str) (w wraw rssi : Int) :
    weight_section host false w =
      chars "# HELP weight_grams Current weight reading in grams\n# TYPE weight_grams gauge\n" ∧
    weight_section host true w =
      chars "# HELP weight_grams Current weight reading in grams\n# TYPE weight_grams gauge\n" ++
      chars "weight_grams\x7bhostname=\"" ++ host ++ chars "\"\x7d " ++ fmt2 w ++ chars "\n" ∧
    weight_raw_section host false wraw =
      chars "# HELP weight_raw Current weight reading in raw units\n# TYPE weight_raw gauge\n" ∧
    weight_raw_section host true wraw =
      chars "# HELP weight_raw Current weight reading in raw units\n# TYPE weight_raw gauge\n" ++
      chars "weight_raw\x7bhostname=\"" ++ host ++ chars "\"\x7d " ++ intStr wraw ++ chars "\n" ∧
    wifi_section host 0 =
      chars "# HELP wifi_rssi_dbm WiFi signal strength in dBm\n# TYPE wifi_rssi_dbm gauge\n" ∧
    (rssi ≠ 0 → wifi_section host rssi =
      chars "# HELP wifi_rssi_dbm WiFi signal strength in dBm\n# TYPE wifi_rssi_dbm gauge\n" ++
      chars "wifi_rssi_dbm\x7bhostname=\"" ++ host ++ chars "\"\x7d " ++ intStr rssi ++ chars "\n") := by
  refine ⟨?_, ?_, ?_, ?_, ?_, ?_⟩
  · simp [weight_section]
  · simp [weight_section, List.append_assoc]
  · simp [weight_raw_section]
  · simp [weight_raw_section, List.append_assoc]
  · simp [wifi_section]
  · intro h
    simp [wifi_section, h, List.append_assoc]

set_option maxRecDepth 100000 in
theorem C10_process_families_witness :
    wifi_section (chars "station1") (-42) =
      chars "# HELP wifi_rssi_dbm WiFi signal strength in dBm\n# TYPE wifi_rssi_dbm gauge\nwifi_rssi_dbm\x7bhostname=\"station1\"\x7d -42\n" := by
  have h := (C10_process_families (chars "station1") 0 0 (-42)).2.2.2.2.2 (by decide)
  exact h.trans (by decide)
